import Mathlib

/-
Verification of the CUPS printer reconciler `cups_lpadmin.py`.

The development shallowly embeds the module: text parsing of the external
command output is embedded as pure functions on `String`, and the stateful
reconciliation (`CUPSPrinter.install` / `CUPSPrinter.uninstall`) is embedded
as explicit state passing over a `World` that holds the external printing
subsystem's (already parsed) configuration for the one destination the
module manages.  Mutating commands (`lpadmin` remove / create / set-options)
are recorded as `Action`s; their effect on the `World` is the
faithful-subsystem semantics: a command's effect is exactly what the command
asked for, so that subsequent queries report what was set.
-/

/-! ## Python string primitives

All of these work on `String.data` directly (rather than through the
position-based core `String` functions) so that every definition reduces
inside the kernel and concrete runs can be settled by `decide`. -/

/-- Characters treated as token separators by Python's `shlex`
(`shlex.whitespace = ' \t\r\n'`). -/
def pyWhitespace (c : Char) : Bool :=
  c = ' ' || c = '\t' || c = '\r' || c = '\n'

/-- Characters stripped by Python's `str.strip()`. -/
def pyStripChar (c : Char) : Bool :=
  c = ' ' || c = '\t' || c = '\n' || c = '\r' || c = '\x0b' || c = '\x0c'

/-- Python `str.strip()`. -/
def strTrim (s : String) : String :=
  String.mk (((s.data.dropWhile pyStripChar).reverse.dropWhile pyStripChar).reverse)

/-- Drops `pre` from the front of `s` when it is a prefix, else `none`. -/
def dropPre : List Char → List Char → Option (List Char)
  | s, [] => some s
  | [], _ :: _ => none
  | c :: s, p :: ps => if c = p then dropPre s ps else none

/-- Python `s.startswith(pre)`. -/
def strStartsWith (s pre : String) : Bool :=
  (dropPre s.data pre.data).isSome

/-- Python `s[n:]`. -/
def strDrop (s : String) (n : Nat) : String :=
  String.mk (s.data.drop n)

/-- Worker for `strSplitOn`, with fuel bounding the number of steps (each
step consumes at least one character, so `|s| + 1` fuel is always enough). -/
def splitOnFuel (sep : List Char) : Nat → List Char → List Char →
    List (List Char)
  | 0, s, acc => [acc.reverse ++ s]
  | _ + 1, [], acc => [acc.reverse]
  | fuel + 1, c :: rest, acc =>
      match dropPre (c :: rest) sep with
      | some rest' => acc.reverse :: splitOnFuel sep fuel rest' []
      | none => splitOnFuel sep fuel rest (c :: acc)

/-- Python `s.split(sep)` for a non-empty separator: splits at every
(leftmost, non-overlapping) occurrence. -/
def strSplitOn (s sep : String) : List String :=
  (splitOnFuel sep.data (s.data.length + 1) s.data []).map String.mk

/-- Python `str.join` on a separator. -/
def strIntercalate (sep : String) : List String → String
  | [] => ""
  | [x] => x
  | x :: xs => x ++ sep ++ strIntercalate sep xs

/-- Python `str.splitlines()` restricted to `'\n'` separators: like
splitting on `"\n"` but without a trailing empty line. -/
def pySplitlines (s : String) : List String :=
  let ls := strSplitOn s "\n"
  if ls.getLast? = some "" then ls.dropLast else ls

/-- Python's `pat in s` substring test. -/
def containsSubstr (s pat : String) : Bool :=
  (strSplitOn s pat).length != 1

/-- Python `s.split(sep, 1)` when it yields two parts: `none` when `sep` does
not occur in `s` (where two-target unpacking would raise `ValueError`, and
indexing `kv[1]` would raise `IndexError`). -/
def split1 (s sep : String) : Option (String × String) :=
  match strSplitOn s sep with
  | [_] => none
  | x :: rest => some (x, strIntercalate sep rest)
  | [] => none

/-- Lookup in an association list standing for a Python `dict`
(the parsers below keep keys unique, so the first hit is the value). -/
def lookupA {α : Type} : List (String × α) → String → Option α
  | [], _ => none
  | (k', v) :: t, k => if k' = k then some v else lookupA t k

/-- Python `dict` assignment `d[k] = v`: overwrite in place, else append. -/
def insertA {α : Type} : List (String × α) → String → α → List (String × α)
  | [], k, v => [(k, v)]
  | (k', v') :: t, k, v =>
      if k' = k then (k, v) :: t else (k', v') :: insertA t k v

/-! ## `shlex.split` (POSIX mode, no comments)

States: outside quotes, inside single quotes, inside double quotes.
Outside quotes a backslash escapes the next character; inside double quotes
it escapes only `"` and `\`; inside single quotes everything is literal.
An unterminated quote or trailing escape raises `ValueError` in Python,
modelled as `none`. -/

inductive ShMode : Type
  | norm
  | squote
  | dquote
deriving DecidableEq

def shlexSplitAux : ShMode → List Char → Option String → List String →
    Option (List String)
  | .norm, [], none, acc => some acc.reverse
  | .norm, [], some t, acc => some (t :: acc).reverse
  | .squote, [], _, _ => none
  | .dquote, [], _, _ => none
  | .norm, c :: cs, cur, acc =>
      if pyWhitespace c then
        match cur with
        | none => shlexSplitAux .norm cs none acc
        | some t => shlexSplitAux .norm cs none (t :: acc)
      else if c = '\'' then shlexSplitAux .squote cs (some (cur.getD "")) acc
      else if c = '"' then shlexSplitAux .dquote cs (some (cur.getD "")) acc
      else if c = '\\' then
        match cs with
        | [] => none
        | c2 :: cs2 => shlexSplitAux .norm cs2 (some ((cur.getD "").push c2)) acc
      else shlexSplitAux .norm cs (some ((cur.getD "").push c)) acc
  | .squote, c :: cs, cur, acc =>
      if c = '\'' then shlexSplitAux .norm cs cur acc
      else shlexSplitAux .squote cs (some ((cur.getD "").push c)) acc
  | .dquote, c :: cs, cur, acc =>
      if c = '"' then shlexSplitAux .norm cs cur acc
      else if c = '\\' then
        match cs with
        | [] => none
        | c2 :: cs2 =>
            if c2 = '"' || c2 = '\\' then
              shlexSplitAux .dquote cs2 (some ((cur.getD "").push c2)) acc
            else
              shlexSplitAux .dquote cs2 (some (((cur.getD "").push c).push c2)) acc
      else shlexSplitAux .dquote cs (some ((cur.getD "").push c)) acc

/-- Python `shlex.split(s)`. -/
def shlexSplit (s : String) : Option (List String) :=
  shlexSplitAux .norm s.data none []

/-! ## Data model -/

/-- Terminal failures reported through `module.fail_json`, plus the
key-lookup fault (`KeyError`) a malformed catalog record would raise. -/
inductive CupsError : Type
  | configurationError
  | driverNotFound
  | keyError
deriving DecidableEq

/-- One entry of the mapping returned by
`CUPSPrinter.get_printer_specific_options`. -/
structure DriverOptionRecord : Type where
  current : Option String
  label : String
  values : List String
deriving DecidableEq

/-- The printing subsystem's configuration for the managed destination,
as the module's queries would report it after parsing. -/
structure Queue : Type where
  cupsOptions : List (String × Option String)
  printerOptions : List (String × DriverOptionRecord)
deriving DecidableEq

/-- The external printing subsystem visible to one reconciliation:
the driver catalog (as parsed by `_get_installed_drivers`), the managed
queue if it exists, and the driver-specific options a freshly created queue
starts out with (the driver's defaults). -/
structure World : Type where
  catalog : List (String × List (String × String))
  queue : Option Queue
  freshPrinterOptions : List (String × DriverOptionRecord)
deriving DecidableEq

/-- The state of a `CUPSPrinter` object after `__init__`. -/
structure CUPSPrinter : Type where
  destination : String
  uri : Option String
  enabled : Bool
  shared : Bool
  model : Option String
  info : Option String
  location : Option String
  options : List (String × String)
deriving DecidableEq

/-- Raw module parameters, before `CUPSPrinter.__init__` rewrites the uri. -/
structure ModuleParams : Type where
  dest : String
  uri : Option String
  enabled : Bool
  shared : Bool
  model : Option String
  info : Option String
  location : Option String
  options : List (String × String)
deriving DecidableEq

/-- The uri rewrite in `CUPSPrinter.__init__`:
`if self.uri and '://' not in self.uri: self.uri = 'lpd://' + uri + '/'`.
Note the Python truthiness test: an empty string is left unchanged. -/
def initUri : Option String → Option String
  | none => none
  | some u =>
      if u != "" && !containsSubstr u "://" then some ("lpd://" ++ u ++ "/")
      else some u

/-- `CUPSPrinter.__init__`. -/
def mkCUPSPrinter (m : ModuleParams) : CUPSPrinter :=
  { destination := m.dest
    uri := initUri m.uri
    enabled := m.enabled
    shared := m.shared
    model := m.model
    info := m.info
    location := m.location
    options := m.options }

/-! ## Text parsers (from the source, over raw command output) -/

/-- The line-level model of `re.split("^Model:", out, flags=MULTILINE)`:
every line beginning with `Model:` starts a new section whose first line is
the rest of that line; the lines before the first marker form section 0. -/
def splitSections (lines : List String) : List (List String) :=
  let step := fun (acc : List (List String)) (l : String) =>
    if strStartsWith l "Model:" then [strDrop l 6] :: acc
    else
      match acc with
      | s :: rest => (l :: s) :: rest
      | [] => [[l]]
  ((lines.foldl step [[]]).map List.reverse).reverse

/-- The per-record loop of `_get_installed_drivers`: each line must contain
`=`; key and value are whitespace-trimmed and stored dict-style.  A line
without `=` (Python `kv[1]` raising `IndexError`) is `none`. -/
def parseDriverRecord (lines : List String) : Option (List (String × String)) :=
  lines.foldlM
    (fun curr l =>
      match split1 l "=" with
      | none => none
      | some (k, v) => some (insertA curr (strTrim k) (strTrim v)))
    []

/-- The catalog key computed by `_get_installed_drivers`: prepend `/` when
the record's `name` has no URI scheme separator. -/
def driverKey (n : String) : String :=
  if containsSubstr n "://" then n else "/" ++ n

/-- Processing of one section of the driver listing inside
`_get_installed_drivers`: skip whitespace-only sections, parse the record,
read its `name` (a missing `name` is a `KeyError`, `none` here), rewrite the
name to the catalog key and store the record under it. -/
def processSection (drivers : List (String × List (String × String)))
    (sec : List String) : Option (List (String × List (String × String))) :=
  if sec.all (fun l => strTrim l = "") then some drivers
  else
    match parseDriverRecord sec with
    | none => none
    | some curr =>
        match lookupA curr "name" with
        | none => none
        | some n => some (insertA drivers (driverKey n) (insertA curr "name" (driverKey n)))

/-- `CUPSPrinter._get_installed_drivers`, over the raw text of
`lpinfo -l -m`. -/
def get_installed_drivers_text (out : String) :
    Option (List (String × List (String × String))) :=
  (splitSections (pySplitlines out)).foldlM processSection []

/-- One token of the `lpoptions -p dest` output: `name` maps to `none`,
`name=value` maps to `some value`. -/
def parseCupsToken (s : String) : String × Option String :=
  match split1 s "=" with
  | none => (s, none)
  | some (k, v) => (k, some v)

/-- `CUPSPrinter.get_printer_cups_options`, over the raw text of
`lpoptions -p dest` (`none` when `shlex.split` raises). -/
def get_printer_cups_options_text (out : String) :
    Option (List (String × Option String)) :=
  match shlexSplit out with
  | none => none
  | some toks =>
      some (toks.foldl
        (fun acc t =>
          let kv := parseCupsToken t
          insertA acc kv.1 kv.2)
        [])

/-- One line of the `lpoptions -p dest -l` output, parsed as in
`CUPSPrinter.get_printer_specific_options`: name before the first `/`,
label before the first `:`, the remaining tokens split by `shlex`; the first
token carrying a `*` prefix gives the current value with the prefix
stripped.  The token list itself is stored as split, prefix included. -/
def parseSpecificLine (l : String) : Option (String × DriverOptionRecord) :=
  match split1 l "/" with
  | none => none
  | some (name, rem1) =>
      match split1 rem1 ":" with
      | none => none
      | some (label, rem2) =>
          match shlexSplit rem2 with
          | none => none
          | some values =>
              some (name,
                { current := (values.find? (fun v => strStartsWith v "*")).map
                    (fun v => strDrop v 1)
                  label := label
                  values := values })

/-- `CUPSPrinter.get_printer_specific_options`, over the raw text of
`lpoptions -p dest -l`. -/
def get_printer_specific_options_text (out : String) :
    Option (List (String × DriverOptionRecord)) :=
  (pySplitlines out).foldlM
    (fun acc l =>
      match parseSpecificLine l with
      | none => none
      | some (n, r) => some (insertA acc n r))
    []

/-! ## The reconciler

The query methods are embedded against the `World`'s already-parsed
snapshots (the text parsers above are verified separately against the raw
command output).  When the queue does not exist, `lpoptions` fails with
empty output and both option queries parse it to the empty mapping, exactly
as the source does since it ignores the exit status of the queries. -/

/-- `CUPSPrinter.exists`: the `lpstat -p dest` exit status. -/
def existsQ (w : World) : Bool :=
  w.queue.isSome

/-- The parsed `lpoptions -p dest` snapshot used by
`get_printer_cups_options`. -/
def cupsOptsOf (w : World) : List (String × Option String) :=
  match w.queue with
  | some q => q.cupsOptions
  | none => []

/-- The parsed `lpoptions -p dest -l` snapshot used by
`get_printer_specific_options`. -/
def printerOptsOf (w : World) : List (String × DriverOptionRecord) :=
  match w.queue with
  | some q => q.printerOptions
  | none => []

/-- `CUPSPrinter._get_make_and_model`.  A falsy (`None` or empty) model means
a raw printer; otherwise the model is looked up in the freshly parsed driver
catalog; `fail_json("unable to determine printer make and model")` when it
is absent, and a `KeyError` when the record lacks `make-and-model`. -/
def get_make_and_model (p : CUPSPrinter) (w : World) : Except CupsError String :=
  match p.model with
  | none => .ok "Local Raw Printer"
  | some m =>
      if m = "" then .ok "Local Raw Printer"
      else
        match lookupA w.catalog m with
        | none => .error .driverNotFound
        | some rec =>
            match lookupA rec "make-and-model" with
            | some mm => .ok mm
            | none => .error .keyError

/-- The make-and-model string the catalog resolves the desired model to,
when that resolution succeeds (`Option` view of `get_make_and_model`). -/
def resolveMM (p : CUPSPrinter) (w : World) : Option String :=
  match p.model with
  | none => some "Local Raw Printer"
  | some m =>
      if m = "" then some "Local Raw Printer"
      else
        match lookupA w.catalog m with
        | none => none
        | some rec => lookupA rec "make-and-model"

/-- The `printer-info` default: the destination name when `info` is falsy
(Python `if self.info:`). -/
def infoOrDest (p : CUPSPrinter) : String :=
  match p.info with
  | some i => if i = "" then p.destination else i
  | none => p.destination

/-- The `printer-is-shared` value string. -/
def sharedStr (b : Bool) : String :=
  if b then "true" else "false"

/-- The `expected_cups_options` dict built inside
`CUPSPrinter.check_cups_options`. -/
def expected_cups_options (p : CUPSPrinter) (mm : String) :
    List (String × Option String) :=
  [("device-uri", p.uri),
   ("printer-make-and-model", some mm),
   ("printer-location", p.location),
   ("printer-info", some (infoOrDest p)),
   ("printer-is-shared", some (sharedStr p.shared))]

/-- `CUPSPrinter.check_cups_options`: resolve the make and model (its
failure aborts the whole run), then require every expected key to be
present in the queried options with exactly the expected value. -/
def check_cups_options (p : CUPSPrinter) (w : World) : Except CupsError Bool :=
  match get_make_and_model p w with
  | .error e => .error e
  | .ok mm =>
      .ok ((expected_cups_options p mm).all
        (fun kv =>
          match lookupA (cupsOptsOf w) kv.1 with
          | none => false
          | some cv => kv.2 == cv))

/-- `CUPSPrinter.check_printer_options`: every explicitly desired option key
must be present among the queried driver-specific options with the desired
value as its current value. -/
def check_printer_options (p : CUPSPrinter) (w : World) : Bool :=
  p.options.all
    (fun kv =>
      match lookupA (printerOptsOf w) kv.1 with
      | none => false
      | some r => some kv.2 == r.current)

/-- The tail of the `lpadmin` create invocation built by
`CUPSPrinter._install_printer` after the enabled flag: sharing, model, info
and location arguments (all the `if x:` tests are Python truthiness). -/
def installPrinterCmdRest (p : CUPSPrinter) : List String :=
  ["-o", if p.shared then "printer-is-shared=true" else "printer-is-shared=false"]
  ++ (match p.model with
      | some m => if m = "" then [] else ["-m", m]
      | none => [])
  ++ (match p.info with
      | some i => if i = "" then [] else ["-D", i]
      | none => [])
  ++ (match p.location with
      | some l => if l = "" then [] else ["-L", l]
      | none => [])

/-- The full argument vector built by `CUPSPrinter._install_printer`. -/
def install_printer_cmd (p : CUPSPrinter) (uri : String) : List String :=
  ["lpadmin", "-p", p.destination, "-v", uri]
  ++ (if p.enabled then ["-E"] else [])
  ++ installPrinterCmdRest p

/-- The argument vector built by `CUPSPrinter._install_printer_options`:
one `-o key=value` pair per desired option, all in one invocation. -/
def install_printer_options_cmd (p : CUPSPrinter) : List String :=
  ["lpadmin", "-p", p.destination]
  ++ p.options.foldr (fun kv acc => "-o" :: (kv.1 ++ "=" ++ kv.2) :: acc) []

/-- An external mutating command issued by the reconciler. -/
inductive CupsAction : Type
  | remove
  | create (cmd : List String)
  | setOptions (opts : List (String × String))
deriving DecidableEq

/-- Recognizes the batched set-options action. -/
def isSetOptionsAct : CupsAction → Bool
  | .setOptions _ => true
  | _ => false

/-- Faithful effect of `lpadmin -x dest`: the queue is gone. -/
def applyRemove (w : World) : World :=
  { w with queue := none }

/-- Faithful effect of the `_install_printer` invocation: when the driver
identifier resolves, the queue exists afterwards and the queries report
exactly the options the command set (CUPS itself resolves the model through
the same catalog, defaults `printer-info` to the destination name, and the
fresh queue starts with the driver's default option values).  When the
identifier does not resolve, `lpadmin` fails and the queue is untouched
(the source ignores the exit status). -/
def applyCreate (p : CUPSPrinter) (uri : String) (w : World) : World :=
  match resolveMM p w with
  | none => w
  | some mm =>
      { w with
        queue := some
          { cupsOptions := expected_cups_options { p with uri := some uri } mm
            printerOptions := w.freshPrinterOptions } }

/-- Updates one driver-specific option to the value just set. -/
def setOpt : List (String × DriverOptionRecord) → String → String →
    List (String × DriverOptionRecord)
  | [], k, v => [(k, { current := some v, label := "", values := [] })]
  | (k', r) :: t, k, v =>
      if k' = k then (k', { r with current := some v }) :: t
      else (k', r) :: setOpt t k v

/-- Faithful effect of the `_install_printer_options` invocation: every
desired option's current value becomes the value just set; nothing else
changes.  Without a queue the command fails and changes nothing. -/
def applySetOptions (p : CUPSPrinter) (w : World) : World :=
  match w.queue with
  | none => w
  | some q =>
      { w with
        queue := some
          { q with
            printerOptions :=
              p.options.foldl (fun l kv => setOpt l kv.1 kv.2) q.printerOptions } }

/-- The outcome of one module run: the final subsystem state, the mutating
commands issued in order, and the `fail_json` error if the run aborted.
`main` reports `changed = true` exactly when some mutating command ran
(`rc is not None`), i.e. when `actions` is non-empty. -/
structure RunOutcome : Type where
  world : World
  actions : List CupsAction
  error : Option CupsError
deriving DecidableEq

/-- `changed` as computed in `main` from `rc`. -/
def changedOf (o : RunOutcome) : Bool :=
  !o.actions.isEmpty

/-- The final block of `CUPSPrinter.install`: issue the batched set-options
command iff some desired option is missing or differs. -/
def installOptionsStage (p : CUPSPrinter) (w : World) (acts : List CupsAction) :
    RunOutcome :=
  if check_printer_options p w then ⟨w, acts, none⟩
  else ⟨applySetOptions p w, acts ++ [CupsAction.setOptions p.options], none⟩

/-- The middle block of `CUPSPrinter.install`: re-query existence and create
the queue when it is (now) absent, then fall through to the options stage. -/
def installStage2 (p : CUPSPrinter) (uri : String) (w : World)
    (acts : List CupsAction) : RunOutcome :=
  if existsQ w then installOptionsStage p w acts
  else
    installOptionsStage p (applyCreate p uri w)
      (acts ++ [CupsAction.create (install_printer_cmd p uri)])

/-- `CUPSPrinter.install` after the uri guard: remove the existing queue when
its CUPS-level options mismatch (a failing `check_cups_options` aborts the
run before any command), then create and set options as needed. -/
def installPresent (p : CUPSPrinter) (uri : String) (w : World) : RunOutcome :=
  if existsQ w then
    match check_cups_options p w with
    | .error e => ⟨w, [], some e⟩
    | .ok true => installStage2 p uri w []
    | .ok false => installStage2 p uri (applyRemove w) [CupsAction.remove]
  else installStage2 p uri w []

/-- `CUPSPrinter.install`: fail with the configuration error
`'uri' is required for present state` when no uri is set. -/
def install (p : CUPSPrinter) (w : World) : RunOutcome :=
  match p.uri with
  | none => ⟨w, [], some CupsError.configurationError⟩
  | some uri => installPresent p uri w

/-- `CUPSPrinter.uninstall`: remove the queue iff it exists. -/
def uninstall (w : World) : RunOutcome :=
  if existsQ w then ⟨applyRemove w, [CupsAction.remove], none⟩
  else ⟨w, [], none⟩

/-- The requested state. -/
inductive ReconcileState : Type
  | present
  | absent
deriving DecidableEq

/-- The dispatch in `main`. -/
def reconcile (p : CUPSPrinter) (s : ReconcileState) (w : World) : RunOutcome :=
  match s with
  | .present => install p w
  | .absent => uninstall w

/-! ## Sample inputs (from the module documentation examples) -/

/-- The zebra example descriptor, as `__init__` leaves it. -/
def zebraPrinter : CUPSPrinter :=
  ⟨"zebra", some "lpd://192.168.1.2/", true, false,
    some "drv:///sample.drv/zebra.ppd", none, none, [("PageSize", "w288h432")]⟩

/-- A subsystem whose catalog resolves the sample driver and whose queue is
initially absent. -/
def zebraWorld : World :=
  ⟨[("drv:///sample.drv/zebra.ppd",
      [("name", "drv:///sample.drv/zebra.ppd"), ("make-and-model", "Zebra ZPL")])],
    none,
    [("PageSize", ⟨some "Letter", "Page Size", ["*Letter", "A4", "w288h432"]⟩)]⟩

/-- The same subsystem with the zebra queue fully converged, plus a live
attribute (`printer-state`) that is never part of the comparison. -/
def zebraLiveWorld : World :=
  ⟨[("drv:///sample.drv/zebra.ppd",
      [("name", "drv:///sample.drv/zebra.ppd"), ("make-and-model", "Zebra ZPL")])],
    some ⟨[("device-uri", some "lpd://192.168.1.2/"),
           ("printer-make-and-model", some "Zebra ZPL"),
           ("printer-location", none),
           ("printer-info", some "zebra"),
           ("printer-is-shared", some "false"),
           ("printer-state", some "stopped")],
          [("PageSize", ⟨some "w288h432", "Page Size", ["*Letter", "A4", "*w288h432"]⟩)]⟩,
    [("PageSize", ⟨some "Letter", "Page Size", ["*Letter", "A4", "w288h432"]⟩)]⟩

/-- A raw-queue descriptor with no desired location. -/
def rawPrinter : CUPSPrinter :=
  ⟨"zebra", some "lpd://h/", true, false, none, none, none, []⟩

/-- A live queue that maps `printer-location` to the empty string. -/
def rawWorld : World :=
  ⟨[], some ⟨[("printer-location", some "")], []⟩, []⟩

/-! ## Association-list and update lemmas -/

theorem lookupA_cons_self {α : Type} (k : String) (v : α) (t : List (String × α)) :
    lookupA ((k, v) :: t) k = some v := by
  simp [lookupA]

theorem lookupA_cons_ne {α : Type} {k' k : String} (h : k' ≠ k) (v : α)
    (t : List (String × α)) : lookupA ((k', v) :: t) k = lookupA t k := by
  simp [lookupA, h]

theorem all_lookup_self {α : Type} (l : List (String × α))
    (h : (l.map Prod.fst).Nodup) : ∀ kv ∈ l, lookupA l kv.1 = some kv.2 := by
  induction l with
  | nil => intro kv hkv; cases hkv
  | cons hd t ih =>
      obtain ⟨hk, hv⟩ := hd
      rw [List.map_cons] at h
      obtain ⟨hmem, hnd⟩ := List.nodup_cons.mp h
      intro kv hkv
      rcases List.mem_cons.mp hkv with rfl | hkv'
      · exact lookupA_cons_self hk hv t
      · have hne : hk ≠ kv.1 := by
          intro he
          apply hmem
          rw [he]
          exact List.mem_map.mpr ⟨kv, hkv', rfl⟩
        rw [lookupA_cons_ne hne, ih hnd kv hkv']

theorem lookupA_setOpt_self (l : List (String × DriverOptionRecord)) (k v : String) :
    ∃ r, lookupA (setOpt l k v) k = some r ∧ r.current = some v := by
  induction l with
  | nil =>
      refine ⟨{ current := some v, label := "", values := [] }, ?_, rfl⟩
      simp [setOpt, lookupA]
  | cons hd t ih =>
      obtain ⟨k', r⟩ := hd
      by_cases h : k' = k
      · subst h
        refine ⟨{ r with current := some v }, ?_, rfl⟩
        simp [setOpt, lookupA]
      · obtain ⟨r', hr', hc⟩ := ih
        refine ⟨r', ?_, hc⟩
        simp [setOpt, lookupA, h, hr']

theorem lookupA_setOpt_ne (l : List (String × DriverOptionRecord)) {k' k : String}
    (h : k' ≠ k) (v : String) : lookupA (setOpt l k' v) k = lookupA l k := by
  induction l with
  | nil => simp [setOpt, lookupA, h]
  | cons hd t ih =>
      obtain ⟨a, r⟩ := hd
      by_cases ha : a = k'
      · subst ha
        simp [setOpt, lookupA, h]
      · by_cases hak : a = k
        · subst hak
          simp [setOpt, lookupA, ha]
        · simp [setOpt, lookupA, ha, hak, ih]

theorem lookupA_foldl_setOpt_not_mem (opts : List (String × String))
    (base : List (String × DriverOptionRecord)) {k : String}
    (h : k ∉ opts.map Prod.fst) :
    lookupA (opts.foldl (fun l kv => setOpt l kv.1 kv.2) base) k = lookupA base k := by
  induction opts generalizing base with
  | nil => rfl
  | cons hd rest ih =>
      rw [List.map_cons, List.mem_cons] at h
      push_neg at h
      rw [List.foldl_cons, ih _ h.2, lookupA_setOpt_ne _ (Ne.symm h.1)]

theorem foldl_setOpt_mem (opts : List (String × String))
    (base : List (String × DriverOptionRecord))
    (hnd : (opts.map Prod.fst).Nodup) :
    ∀ kv ∈ opts, ∃ r,
      lookupA (opts.foldl (fun l kv => setOpt l kv.1 kv.2) base) kv.1 = some r ∧
      r.current = some kv.2 := by
  induction opts generalizing base with
  | nil => intro kv hkv; cases hkv
  | cons hd rest ih =>
      rw [List.map_cons] at hnd
      obtain ⟨hmem, hnd'⟩ := List.nodup_cons.mp hnd
      intro kv hkv
      rcases List.mem_cons.mp hkv with rfl | hkv'
      · obtain ⟨r, hr, hc⟩ := lookupA_setOpt_self base kv.1 kv.2
        refine ⟨r, ?_, hc⟩
        rw [List.foldl_cons, lookupA_foldl_setOpt_not_mem rest _ hmem]
        exact hr
      · rw [List.foldl_cons]
        exact ih _ hnd' kv hkv' 

/-! ## Preservation and congruence lemmas for the world transformers -/

theorem applyRemove_catalog (w : World) : (applyRemove w).catalog = w.catalog := rfl

theorem applyRemove_queue (w : World) : (applyRemove w).queue = none := rfl

theorem applyCreate_catalog (p : CUPSPrinter) (u : String) (w : World) :
    (applyCreate p u w).catalog = w.catalog := by
  unfold applyCreate
  split <;> rfl

theorem applySetOptions_catalog (p : CUPSPrinter) (w : World) :
    (applySetOptions p w).catalog = w.catalog := by
  unfold applySetOptions
  split <;> rfl

theorem applySetOptions_cupsOpts (p : CUPSPrinter) (w : World) :
    cupsOptsOf (applySetOptions p w) = cupsOptsOf w := by
  unfold applySetOptions cupsOptsOf
  cases hq : w.queue <;> simp [hq]

theorem applySetOptions_existsQ (p : CUPSPrinter) (w : World) :
    existsQ (applySetOptions p w) = existsQ w := by
  unfold applySetOptions existsQ
  cases hq : w.queue <;> simp [hq]

theorem gmm_congr (p : CUPSPrinter) {w w' : World} (h : w'.catalog = w.catalog) :
    get_make_and_model p w' = get_make_and_model p w := by
  unfold get_make_and_model
  rw [h]

theorem resolveMM_congr (p : CUPSPrinter) {w w' : World}
    (h : w'.catalog = w.catalog) : resolveMM p w' = resolveMM p w := by
  unfold resolveMM
  rw [h]

theorem resolveMM_iff (p : CUPSPrinter) (w : World) (mm : String) :
    resolveMM p w = some mm ↔ get_make_and_model p w = .ok mm := by
  unfold resolveMM get_make_and_model
  cases p.model with
  | none => simp
  | some m =>
      by_cases hm : m = ""
      · simp [hm]
      · simp only [hm, if_false]
        rcases hrec : lookupA w.catalog m with _ | rec <;> simp only [hrec]
        · simp
        · rcases hmm : lookupA rec "make-and-model" with _ | mm2 <;> simp [hmm]

theorem check_cups_congr (p : CUPSPrinter) {w w' : World}
    (hcat : w'.catalog = w.catalog) (hopts : cupsOptsOf w' = cupsOptsOf w) :
    check_cups_options p w' = check_cups_options p w := by
  unfold check_cups_options
  rw [gmm_congr p hcat, hopts]

theorem check_printer_congr (p : CUPSPrinter) {w w' : World}
    (hopts : printerOptsOf w' = printerOptsOf w) :
    check_printer_options p w' = check_printer_options p w := by
  unfold check_printer_options
  rw [hopts]

theorem withUri_eq {p : CUPSPrinter} {u : String} (h : p.uri = some u) :
    { p with uri := some u } = p := by
  obtain ⟨dest, uri, en, sh, mo, inf, loc, opts⟩ := p
  obtain rfl : uri = some u := h
  rfl

theorem applyCreate_queue (p : CUPSPrinter) (u : String) (w : World)
    (mm : String) (hm : resolveMM p w = some mm) :
    (applyCreate p u w).queue =
      some ⟨expected_cups_options { p with uri := some u } mm,
            w.freshPrinterOptions⟩ := by
  unfold applyCreate
  rw [hm]

theorem expected_keys_nodup (p : CUPSPrinter) (mm : String) :
    ((expected_cups_options p mm).map Prod.fst).Nodup := by
  simp [expected_cups_options]

theorem check_cups_options_ok (p : CUPSPrinter) (w : World) (mm : String)
    (h : get_make_and_model p w = .ok mm) :
    check_cups_options p w = .ok ((expected_cups_options p mm).all
      (fun kv =>
        match lookupA (cupsOptsOf w) kv.1 with
        | none => false
        | some cv => kv.2 == cv)) := by
  unfold check_cups_options
  rw [h]

theorem check_cups_applyCreate (p : CUPSPrinter) (u : String) (w : World)
    (mm : String) (hu : p.uri = some u) (hm : resolveMM p w = some mm) :
    check_cups_options p (applyCreate p u w) = .ok true := by
  have hq := applyCreate_queue p u w mm hm
  rw [withUri_eq hu] at hq
  have hcups : cupsOptsOf (applyCreate p u w) = expected_cups_options p mm := by
    unfold cupsOptsOf
    rw [hq]
  have hgm : get_make_and_model p (applyCreate p u w) = .ok mm := by
    rw [gmm_congr p (applyCreate_catalog p u w)]
    exact (resolveMM_iff p w mm).mp hm
  rw [check_cups_options_ok p _ mm hgm, hcups]
  congr 1
  rw [List.all_eq_true]
  intro kv hkv
  simp [all_lookup_self (expected_cups_options p mm) (expected_keys_nodup p mm) kv hkv]

theorem check_printer_applySetOptions (p : CUPSPrinter) (w : World) (q : Queue)
    (hq : w.queue = some q) (hnd : (p.options.map Prod.fst).Nodup) :
    check_printer_options p (applySetOptions p w) = true := by
  have hpo : printerOptsOf (applySetOptions p w) =
      p.options.foldl (fun l kv => setOpt l kv.1 kv.2) q.printerOptions := by
    unfold applySetOptions printerOptsOf
    rw [hq]
  unfold check_printer_options
  rw [hpo, List.all_eq_true]
  intro kv hkv
  obtain ⟨r, hr, hc⟩ := foldl_setOpt_mem p.options q.printerOptions hnd kv hkv
  simp [hr, hc]

/-! ## Unfolding and post-condition lemmas for `install` -/

theorem install_eq {p : CUPSPrinter} {u : String} (w : World)
    (hu : p.uri = some u) : install p w = installPresent p u w := by
  unfold install
  rw [hu]

theorem check_cups_ok_of_resolve {p : CUPSPrinter} {w : World} {mm : String}
    (hm : resolveMM p w = some mm) : ∃ b, check_cups_options p w = .ok b := by
  unfold check_cups_options
  rw [(resolveMM_iff p w mm).mp hm]
  exact ⟨_, rfl⟩

theorem installOptionsStage_post (p : CUPSPrinter) (w : World)
    (acts : List CupsAction) (hex : existsQ w = true)
    (hcups : check_cups_options p w = .ok true)
    (hnd : (p.options.map Prod.fst).Nodup) :
    (installOptionsStage p w acts).error = none ∧
    (installOptionsStage p w acts).world.catalog = w.catalog ∧
    existsQ (installOptionsStage p w acts).world = true ∧
    check_cups_options p (installOptionsStage p w acts).world = .ok true ∧
    check_printer_options p (installOptionsStage p w acts).world = true := by
  unfold installOptionsStage
  by_cases hpo : check_printer_options p w = true
  · rw [if_pos hpo]
    exact ⟨rfl, rfl, hex, hcups, hpo⟩
  · rw [if_neg hpo]
    obtain ⟨q, hq⟩ := Option.isSome_iff_exists.mp hex
    refine ⟨rfl, applySetOptions_catalog p w, ?_, ?_, ?_⟩
    · rw [show (RunOutcome.mk (applySetOptions p w)
          (acts ++ [CupsAction.setOptions p.options]) none).world =
          applySetOptions p w from rfl]
      rw [applySetOptions_existsQ p w]
      exact hex
    · rw [show (RunOutcome.mk (applySetOptions p w)
          (acts ++ [CupsAction.setOptions p.options]) none).world =
          applySetOptions p w from rfl]
      rw [check_cups_congr p (applySetOptions_catalog p w)
        (applySetOptions_cupsOpts p w)]
      exact hcups
    · exact check_printer_applySetOptions p w q hq hnd

theorem installStage2_post (p : CUPSPrinter) (u : String) (w : World)
    (acts : List CupsAction) (mm : String)
    (hu : p.uri = some u) (hm : resolveMM p w = some mm)
    (hnd : (p.options.map Prod.fst).Nodup)
    (hok : existsQ w = true → check_cups_options p w = .ok true) :
    (installStage2 p u w acts).error = none ∧
    (installStage2 p u w acts).world.catalog = w.catalog ∧
    existsQ (installStage2 p u w acts).world = true ∧
    check_cups_options p (installStage2 p u w acts).world = .ok true ∧
    check_printer_options p (installStage2 p u w acts).world = true := by
  unfold installStage2
  by_cases hex : existsQ w = true
  · rw [if_pos hex]
    exact installOptionsStage_post p w acts hex (hok hex) hnd
  · rw [if_neg hex]
    have hexC : existsQ (applyCreate p u w) = true := by
      unfold existsQ
      rw [applyCreate_queue p u w mm hm]
      rfl
    have hcupsC := check_cups_applyCreate p u w mm hu hm
    obtain ⟨e1, e2, e3, e4, e5⟩ :=
      installOptionsStage_post p (applyCreate p u w)
        (acts ++ [CupsAction.create (install_printer_cmd p u)]) hexC hcupsC hnd
    exact ⟨e1, e2.trans (applyCreate_catalog p u w), e3, e4, e5⟩

theorem install_post (p : CUPSPrinter) (w : World) (u mm : String)
    (hu : p.uri = some u) (hm : resolveMM p w = some mm)
    (hnd : (p.options.map Prod.fst).Nodup) :
    (install p w).error = none ∧
    (install p w).world.catalog = w.catalog ∧
    existsQ (install p w).world = true ∧
    check_cups_options p (install p w).world = .ok true ∧
    check_printer_options p (install p w).world = true := by
  rw [install_eq w hu]
  unfold installPresent
  by_cases hex : existsQ w = true
  · rw [if_pos hex]
    obtain ⟨b, hb⟩ := check_cups_ok_of_resolve hm
    cases b with
    | true =>
        rw [hb]
        exact installStage2_post p u w [] mm hu hm hnd (fun _ => hb)
    | false =>
        rw [hb]
        have hmR : resolveMM p (applyRemove w) = some mm := by
          rw [resolveMM_congr p (applyRemove_catalog w)]
          exact hm
        obtain ⟨e1, e2, e3, e4, e5⟩ :=
          installStage2_post p u (applyRemove w) [CupsAction.remove] mm hu hmR hnd
            (fun hc => absurd hc (by simp [existsQ, applyRemove]))
        exact ⟨e1, e2.trans (applyRemove_catalog w), e3, e4, e5⟩
  · rw [if_neg hex]
    exact installStage2_post p u w [] mm hu hm hnd (fun hc => absurd hc hex)

theorem install_noop (p : CUPSPrinter) (w : World) (u : String)
    (hu : p.uri = some u) (hex : existsQ w = true)
    (hcups : check_cups_options p w = .ok true)
    (hpo : check_printer_options p w = true) :
    install p w = ⟨w, [], none⟩ := by
  rw [install_eq w hu]
  unfold installPresent installStage2 installOptionsStage
  simp [hex, hcups, hpo]

theorem optionsStage_actions (p : CUPSPrinter) (w : World) (acts : List CupsAction) :
    (installOptionsStage p w acts).actions = acts ∨
    (installOptionsStage p w acts).actions =
      acts ++ [CupsAction.setOptions p.options] := by
  unfold installOptionsStage
  by_cases hpo : check_printer_options p w = true
  · rw [if_pos hpo]
    exact Or.inl rfl
  · rw [if_neg hpo]
    exact Or.inr rfl

theorem stage2_actions_shape (p : CUPSPrinter) (u : String) (w : World)
    (acts : List CupsAction)
    (hpre : ∀ a ∈ acts, isSetOptionsAct a = false) :
    ∃ pre : List CupsAction,
      (∀ a ∈ pre, isSetOptionsAct a = false) ∧
      ((installStage2 p u w acts).actions = pre ∨
        (installStage2 p u w acts).actions =
          pre ++ [CupsAction.setOptions p.options]) := by
  unfold installStage2
  by_cases hex : existsQ w = true
  · rw [if_pos hex]
    exact ⟨acts, hpre, optionsStage_actions p w acts⟩
  · rw [if_neg hex]
    refine ⟨acts ++ [CupsAction.create (install_printer_cmd p u)], ?_, ?_⟩
    · intro a ha
      rcases List.mem_append.mp ha with ha | ha
      · exact hpre a ha
      · rcases List.mem_singleton.mp ha with rfl
        rfl
    · exact optionsStage_actions p (applyCreate p u w) _

theorem install_actions_shape (p : CUPSPrinter) (w : World) :
    ∃ pre : List CupsAction,
      (∀ a ∈ pre, isSetOptionsAct a = false) ∧
      ((install p w).actions = pre ∨
        (install p w).actions = pre ++ [CupsAction.setOptions p.options]) := by
  rcases hup : p.uri with _ | u
  · refine ⟨[], by simp, Or.inl ?_⟩
    unfold install
    rw [hup]
  · rw [install_eq w hup]
    unfold installPresent
    by_cases hex : existsQ w = true
    · rw [if_pos hex]
      rcases hc : check_cups_options p w with e | b
      · exact ⟨[], by simp, Or.inl rfl⟩
      · cases b with
        | true => exact stage2_actions_shape p u w [] (by simp)
        | false =>
            refine stage2_actions_shape p u (applyRemove w) [CupsAction.remove] ?_
            intro a ha
            rcases List.mem_singleton.mp ha with rfl
            rfl
    · rw [if_neg hex]
      exact stage2_actions_shape p u w [] (by simp)

/-! ## Claims -/

/-- Claim C4: for every desired descriptor in present mode whose uri is
absent, reconcile fails with the configuration error before any external
call, issuing zero external mutating calls and leaving the world
untouched. -/
theorem install_requires_uri (p : CUPSPrinter) (w : World) (h : p.uri = none) :
    reconcile p .present w = ⟨w, [], some CupsError.configurationError⟩ := by
  show install p w = _
  unfold install
  rw [h]

theorem install_requires_uri_witness :
    reconcile ⟨"raw_test", none, true, false, none, none, none, []⟩ .present
      ⟨[], none, []⟩ =
      ⟨⟨[], none, []⟩, [], some CupsError.configurationError⟩ :=
  install_requires_uri _ _ rfl

/-- Claim C1 (amended): when the queue exists and the desired model is a
non-empty string absent from the freshly queried driver catalog, reconcile
in present mode fails with the driver-not-found error and issues zero
external mutating calls.  (As originally stated the claim fails: with the
queue absent the catalog is never consulted and a create command is issued,
and an empty model string is treated as a raw printer.) -/
theorem install_driver_not_found (p : CUPSPrinter) (w : World) (m : String)
    (hm : p.model = some m) (hne : m ≠ "")
    (hcat : lookupA w.catalog m = none)
    (hu : p.uri.isSome = true) (hex : existsQ w = true) :
    reconcile p .present w = ⟨w, [], some CupsError.driverNotFound⟩ := by
  obtain ⟨u, hu'⟩ := Option.isSome_iff_exists.mp hu
  show install p w = _
  rw [install_eq w hu']
  unfold installPresent
  rw [if_pos hex]
  have hc : check_cups_options p w = .error CupsError.driverNotFound := by
    unfold check_cups_options get_make_and_model
    simp [hm, hne, hcat]
  rw [hc]

/-- Claim C1 counterexample: with the queue absent and a model missing from
the catalog, reconcile does not fail with the driver-not-found error and
issues a mutating create command; and an empty (non-null) model missing
from the catalog does not fail even with the queue present. -/
theorem install_driver_not_found_cex :
    ((reconcile ⟨"zebra", some "lpd://host/", true, false, some "missing.ppd",
        none, none, []⟩ .present ⟨[], none, []⟩).error = none ∧
      (reconcile ⟨"zebra", some "lpd://host/", true, false, some "missing.ppd",
        none, none, []⟩ .present ⟨[], none, []⟩).actions ≠ []) ∧
    (reconcile ⟨"zebra2", some "lpd://host/", true, false, some "", none, none,
        []⟩ .present ⟨[], some ⟨[], []⟩, []⟩).error ≠
      some CupsError.driverNotFound := by
  decide

theorem install_driver_not_found_witness :
    reconcile ⟨"zebra", some "lpd://host/", true, false, some "missing.ppd",
        none, none, []⟩ .present ⟨[], some ⟨[], []⟩, []⟩ =
      ⟨⟨[], some ⟨[], []⟩, []⟩, [], some CupsError.driverNotFound⟩ :=
  install_driver_not_found _ _ "missing.ppd" rfl (by decide) rfl rfl rfl

/-- Claim C8: in absent mode, when the queue does not exist no action is
issued and the outcome is unchanged with empty output; when it exists,
exactly one removal action is issued; changed holds iff a removal was
performed. -/
theorem uninstall_changed_iff (w : World) :
    (existsQ w = false →
      uninstall w = ⟨w, [], none⟩ ∧ changedOf (uninstall w) = false) ∧
    (existsQ w = true →
      uninstall w = ⟨applyRemove w, [CupsAction.remove], none⟩ ∧
      changedOf (uninstall w) = true) ∧
    (changedOf (uninstall w) = true ↔ CupsAction.remove ∈ (uninstall w).actions) := by
  unfold uninstall changedOf
  by_cases hex : existsQ w = true
  · rw [if_pos hex]
    exact ⟨fun h => absurd hex (by simp [h]), fun _ => ⟨rfl, rfl⟩, by simp⟩
  · rw [if_neg hex]
    exact ⟨fun _ => ⟨rfl, rfl⟩, fun h => absurd h hex, by simp⟩

theorem uninstall_changed_iff_witness :
    uninstall ⟨[], some ⟨[], []⟩, []⟩ =
      ⟨applyRemove ⟨[], some ⟨[], []⟩, []⟩, [CupsAction.remove], none⟩ ∧
    changedOf (uninstall ⟨[], some ⟨[], []⟩, []⟩) = true :=
  (uninstall_changed_iff ⟨[], some ⟨[], []⟩, []⟩).2.1 rfl

/-- Claim C6 (amended): every non-empty uri without a scheme separator is
rewritten to the synthesized device URI with the lpd scheme prepended and a
trailing slash appended; a uri containing the separator is kept unchanged;
and the stored uri is the one placed after the `-v` flag of the create
command and the one expected for the `device-uri` key.  (As originally
stated the claim fails for the empty uri string, which Python truthiness
leaves unchanged.) -/
theorem uri_scheme_synthesis (m : ModuleParams) (u s : String) :
    (u ≠ "" → containsSubstr u "://" = false →
      initUri (some u) = some ("lpd://" ++ u ++ "/")) ∧
    (containsSubstr u "://" = true → initUri (some u) = some u) ∧
    initUri (some "192.168.1.2") = some "lpd://192.168.1.2/" ∧
    ((mkCUPSPrinter m).uri = some s →
      install_printer_cmd (mkCUPSPrinter m) s =
        ["lpadmin", "-p", m.dest, "-v", s] ++
          (if m.enabled then ["-E"] else []) ++
          installPrinterCmdRest (mkCUPSPrinter m) ∧
      ∀ mm, lookupA (expected_cups_options (mkCUPSPrinter m) mm) "device-uri" =
        some (some s)) := by
  refine ⟨?_, ?_, by decide, ?_⟩
  · intro h1 h2
    have hb : (u != "") = true := bne_iff_ne.mpr h1
    show (if (u != "" && !containsSubstr u "://") = true
        then some ("lpd://" ++ u ++ "/") else some u) = some ("lpd://" ++ u ++ "/")
    rw [h2, hb]
    rfl
  · intro h
    unfold initUri
    simp [h]
  · intro hs
    refine ⟨rfl, fun mm => ?_⟩
    unfold expected_cups_options
    rw [lookupA_cons_self, hs]

theorem uri_scheme_synthesis_cex :
    containsSubstr "" "://" = false ∧
    initUri (some "") ≠ some ("lpd://" ++ "" ++ "/") := by
  decide

theorem uri_scheme_synthesis_witness :
    initUri (some "192.168.1.3") = some ("lpd://" ++ "192.168.1.3" ++ "/") :=
  (uri_scheme_synthesis ⟨"zebra", some "192.168.1.3", true, false, none, none,
    none, []⟩ "192.168.1.3" "lpd://192.168.1.3/").1 (by decide) (by decide)

/-- Claim C7: the catalog key of a parsed driver record is its `name` with
`/` prepended exactly when the name contains no `://` separator, and the
name unchanged otherwise; in particular a record with name `drv.ppd` is
stored under `/drv.ppd` and one with name `socket://host` under
`socket://host`. -/
theorem driver_catalog_key (drivers : List (String × List (String × String)))
    (sec : List String) (curr : List (String × String)) (n : String)
    (hp : parseDriverRecord sec = some curr)
    (hn : lookupA curr "name" = some n)
    (hb : sec.all (fun l => strTrim l = "") = false) :
    processSection drivers sec =
      some (insertA drivers (if containsSubstr n "://" then n else "/" ++ n)
        (insertA curr "name" (if containsSubstr n "://" then n else "/" ++ n))) ∧
    get_installed_drivers_text "Model: name=drv.ppd" =
      some [("/drv.ppd", [("name", "/drv.ppd")])] ∧
    get_installed_drivers_text "Model: name=socket://host" =
      some [("socket://host", [("name", "socket://host")])] := by
  refine ⟨?_, by decide, by decide⟩
  unfold processSection
  rw [if_neg (by simp [hb])]
  simp only [hp, hn]
  rfl

theorem driver_catalog_key_witness :
    processSection [] ["name=drv.ppd"] =
      some (insertA []
        (if containsSubstr "drv.ppd" "://" then "drv.ppd" else "/" ++ "drv.ppd")
        (insertA [("name", "drv.ppd")] "name"
          (if containsSubstr "drv.ppd" "://" then "drv.ppd" else "/" ++ "drv.ppd"))) :=
  (driver_catalog_key [] ["name=drv.ppd"] [("name", "drv.ppd")] "drv.ppd"
    (by decide) (by decide) (by decide)).1

/-- Claim C2 (amended): the options-listing line
`PageSize/Page Size: *Letter A4` parses to name `PageSize`, label
`Page Size`, current value `Letter` — the `*` prefix is stripped in the
stored current value only — and values `["*Letter", "A4"]` exactly as split,
prefix included; and whenever no token carries the `*` prefix the stored
current value is null.  (As originally stated the claim fails: the stored
values list keeps the `*` prefix.) -/
theorem specific_options_star :
    get_printer_specific_options_text "PageSize/Page Size: *Letter A4" =
      some [("PageSize",
        { current := some "Letter", label := "Page Size",
          values := ["*Letter", "A4"] })] ∧
    ∀ (l n : String) (r : DriverOptionRecord),
      parseSpecificLine l = some (n, r) →
      (∀ v ∈ r.values, strStartsWith v "*" = false) → r.current = none := by
  refine ⟨by decide, ?_⟩
  intro l n r h hstar
  unfold parseSpecificLine at h
  rcases h1 : split1 l "/" with _ | ⟨name, rem1⟩ <;> simp only [h1] at h
  · exact absurd h (by simp)
  · rcases h2 : split1 rem1 ":" with _ | ⟨label, rem2⟩ <;> simp only [h2] at h
    · exact absurd h (by simp)
    · rcases h3 : shlexSplit rem2 with _ | values <;> simp only [h3] at h
      · exact absurd h (by simp)
      · rw [Option.some.injEq, Prod.mk.injEq] at h
        obtain ⟨rfl, rfl⟩ := h
        show (values.find? (fun v => strStartsWith v "*")).map
          (fun v => strDrop v 1) = none
        have hf : values.find? (fun v => strStartsWith v "*") = none := by
          rw [List.find?_eq_none]
          intro x hx
          simp [hstar x hx]
        rw [hf]
        rfl

theorem specific_options_star_cex :
    get_printer_specific_options_text "PageSize/Page Size: *Letter A4" ≠
      some [("PageSize",
        { current := some "Letter", label := "Page Size",
          values := ["Letter", "A4"] })] := by
  decide

theorem specific_options_star_witness :
    ({ current := none, label := "2-Sided Printing",
        values := ["DuplexNoTumble", "None"] } : DriverOptionRecord).current = none :=
  specific_options_star.2 "Duplex/2-Sided Printing: DuplexNoTumble None" "Duplex"
    { current := none, label := "2-Sided Printing",
      values := ["DuplexNoTumble", "None"] }
    (by decide) (by decide)

/-- Claim C3 (amended): reconciling twice in present mode against a faithful
subsystem makes the second run issue no mutating command and report
changed = false, provided the descriptor carries a uri, its model resolves
in the driver catalog to a make-and-model value, and its desired option
keys are unique (as the source's dict input guarantees).  (As originally
stated the claim fails: with a model absent from the catalog the create
command is rejected by the subsystem and every run reissues it.) -/
theorem install_idempotent (p : CUPSPrinter) (w : World) (u mm : String)
    (hu : p.uri = some u) (hm : resolveMM p w = some mm)
    (hnd : (p.options.map Prod.fst).Nodup) :
    (reconcile p .present w).error = none ∧
    reconcile p .present (reconcile p .present w).world =
      ⟨(reconcile p .present w).world, [], none⟩ ∧
    changedOf (reconcile p .present (reconcile p .present w).world) = false := by
  obtain ⟨e1, e2, e3, e4, e5⟩ := install_post p w u mm hu hm hnd
  have h2 : install p (install p w).world = ⟨(install p w).world, [], none⟩ :=
    install_noop p _ u hu e3 e4 e5
  refine ⟨e1, h2, ?_⟩
  show changedOf (install p (install p w).world) = false
  rw [h2]
  rfl

theorem install_idempotent_cex :
    (reconcile ⟨"d", some "lpd://h/", true, false, some "drv", none, none, []⟩
      .present
      (reconcile ⟨"d", some "lpd://h/", true, false, some "drv", none, none, []⟩
        .present ⟨[], none, []⟩).world).actions ≠ [] ∧
    changedOf (reconcile ⟨"d", some "lpd://h/", true, false, some "drv", none,
      none, []⟩ .present
      (reconcile ⟨"d", some "lpd://h/", true, false, some "drv", none, none, []⟩
        .present ⟨[], none, []⟩).world) = true := by
  decide

theorem install_idempotent_witness :
    (reconcile zebraPrinter .present zebraWorld).error = none ∧
    reconcile zebraPrinter .present (reconcile zebraPrinter .present zebraWorld).world =
      ⟨(reconcile zebraPrinter .present zebraWorld).world, [], none⟩ ∧
    changedOf (reconcile zebraPrinter .present
      (reconcile zebraPrinter .present zebraWorld).world) = false :=
  install_idempotent zebraPrinter zebraWorld "lpd://192.168.1.2/" "Zebra ZPL"
    rfl rfl (by decide)

/-- Claim C5: only the explicitly desired option keys are compared against
the live driver-specific options — the check passes exactly when every
desired key is present with a matching current value, in particular when no
option is desired; a single missing or differing key triggers exactly one
batched set-options action carrying every desired option; and a whole run
issues at most one set-options action, always carrying the full desired
option set. -/
theorem printer_options_batched (p : CUPSPrinter) (w : World)
    (acts : List CupsAction) :
    (check_printer_options p w = true ↔
      ∀ kv ∈ p.options,
        (lookupA (printerOptsOf w) kv.1).map DriverOptionRecord.current =
          some (some kv.2)) ∧
    (p.options = [] → check_printer_options p w = true) ∧
    (check_printer_options p w = true →
      installOptionsStage p w acts = ⟨w, acts, none⟩) ∧
    (check_printer_options p w = false →
      installOptionsStage p w acts =
        ⟨applySetOptions p w, acts ++ [CupsAction.setOptions p.options], none⟩) ∧
    ((install p w).actions.filter isSetOptionsAct).length ≤ 1 ∧
    (∀ a ∈ (install p w).actions, isSetOptionsAct a = true →
      a = CupsAction.setOptions p.options) := by
  refine ⟨?_, ?_, ?_, ?_, ?_, ?_⟩
  · unfold check_printer_options
    rw [List.all_eq_true]
    constructor
    · intro h kv hkv
      have hx := h kv hkv
      rcases hl : lookupA (printerOptsOf w) kv.1 with _ | r
      · rw [hl] at hx
        exact absurd hx (by simp)
      · rw [hl] at hx
        have hbeq : (some kv.2 == r.current) = true := hx
        simp only [Option.map_some']
        rw [← eq_of_beq hbeq]
    · intro h kv hkv
      have hx := h kv hkv
      rcases hl : lookupA (printerOptsOf w) kv.1 with _ | r
      · rw [hl] at hx
        exact absurd hx (by simp)
      · rw [hl] at hx
        simp only [Option.map_some', Option.some.injEq] at hx
        show (some kv.2 == r.current) = true
        rw [hx]
        simp
  · intro h
    unfold check_printer_options
    rw [h]
    rfl
  · intro h
    unfold installOptionsStage
    rw [if_pos h]
  · intro h
    unfold installOptionsStage
    rw [if_neg (by simp [h])]
  · obtain ⟨pre, hfree, hcase⟩ := install_actions_shape p w
    have hfil : pre.filter isSetOptionsAct = [] :=
      List.filter_eq_nil_iff.mpr (fun a ha => by simp [hfree a ha])
    rcases hcase with hc | hc <;> rw [hc]
    · rw [hfil]
      simp
    · rw [List.filter_append, hfil]
      simp [isSetOptionsAct]
  · intro a ha hset
    obtain ⟨pre, hfree, hcase⟩ := install_actions_shape p w
    rcases hcase with hc | hc <;> rw [hc] at ha
    · exact absurd hset (by simp [hfree a ha])
    · rcases List.mem_append.mp ha with ha | ha
      · exact absurd hset (by simp [hfree a ha])
      · exact List.mem_singleton.mp ha

theorem printer_options_batched_witness :
    installOptionsStage zebraPrinter zebraLiveWorld [] =
      ⟨zebraLiveWorld, [], none⟩ :=
  (printer_options_batched zebraPrinter zebraLiveWorld []).2.2.1 rfl

/-- Claim C9: the desired enabled flag never participates in the
comparisons — both checks are unchanged under any enabled value; an
existing queue whose compared CUPS options and desired options all match
yields no mutating action and changed = false, whatever the live
enabled/accepting state (no enabled-related key is compared); and enabled
only selects the `-E` flag of the create command. -/
theorem enabled_not_compared (p : CUPSPrinter) (w : World) (b : Bool)
    (u : String) :
    check_cups_options { p with enabled := b } w = check_cups_options p w ∧
    check_printer_options { p with enabled := b } w = check_printer_options p w ∧
    (p.uri = some u → existsQ w = true → check_cups_options p w = .ok true →
      check_printer_options p w = true →
      reconcile p .present w = ⟨w, [], none⟩ ∧
      changedOf (reconcile p .present w) = false) ∧
    (p.enabled = true → install_printer_cmd p u =
      ["lpadmin", "-p", p.destination, "-v", u, "-E"] ++ installPrinterCmdRest p) ∧
    (p.enabled = false → install_printer_cmd p u =
      ["lpadmin", "-p", p.destination, "-v", u] ++ installPrinterCmdRest p) := by
  refine ⟨?_, ?_, ?_, ?_, ?_⟩
  · cases p
    rfl
  · cases p
    rfl
  · intro hu hex hc hpo
    have hni := install_noop p w u hu hex hc hpo
    refine ⟨hni, ?_⟩
    show changedOf (install p w) = false
    rw [hni]
    rfl
  · intro h
    unfold install_printer_cmd
    rw [h]
    simp
  · intro h
    unfold install_printer_cmd
    rw [h]
    simp

theorem enabled_not_compared_witness :
    reconcile zebraPrinter .present zebraLiveWorld = ⟨zebraLiveWorld, [], none⟩ ∧
    changedOf (reconcile zebraPrinter .present zebraLiveWorld) = false :=
  (enabled_not_compared zebraPrinter zebraLiveWorld false "lpd://192.168.1.2/").2.2.1
    rfl rfl rfl rfl

/-- Claim C10: when the desired location is absent, the CUPS-options
comparison requires the live options to contain `printer-location` mapped
to the null value (which the options listing produces only for a bare token
with no `=value`); a live listing lacking the key or mapping it to any
string value — the empty string included — fails the check, and the queue
is then removed and recreated. -/
theorem location_none_requires_flag (p : CUPSPrinter) (w : World) (q : Queue)
    (u : String) (hloc : p.location = none) (hq : w.queue = some q) :
    (check_cups_options p w = .ok true →
      lookupA q.cupsOptions "printer-location" = some none) ∧
    (∀ mm, get_make_and_model p w = .ok mm →
      (lookupA q.cupsOptions "printer-location" = none ∨
        (∃ s, lookupA q.cupsOptions "printer-location" = some (some s))) →
      check_cups_options p w = .ok false ∧
      (p.uri = some u → ∃ rest, (reconcile p .present w).actions =
        CupsAction.remove :: CupsAction.create (install_printer_cmd p u) :: rest)) ∧
    get_printer_cups_options_text "printer-location" =
      some [("printer-location", none)] ∧
    get_printer_cups_options_text "printer-location=" =
      some [("printer-location", some "")] := by
  have hco : cupsOptsOf w = q.cupsOptions := by
    unfold cupsOptsOf
    rw [hq]
  refine ⟨?_, ?_, by decide, by decide⟩
  · intro h
    unfold check_cups_options at h
    rcases hg : get_make_and_model p w with e | mm <;> simp only [hg] at h
    · exact absurd h (by simp)
    · rw [Except.ok.injEq] at h
      rw [List.all_eq_true] at h
      have hpl : (("printer-location", p.location) : String × Option String) ∈
          expected_cups_options p mm := by
        unfold expected_cups_options
        simp
      have hx := h _ hpl
      rcases hl : lookupA q.cupsOptions "printer-location" with _ | cv
      · rw [hco, hl] at hx
        exact absurd hx (by simp)
      · rw [hco, hl] at hx
        have hbeq : (p.location == cv) = true := hx
        rw [← eq_of_beq hbeq, hloc]
  · intro mm hg hmiss
    have hball : (expected_cups_options p mm).all
        (fun kv =>
          match lookupA (cupsOptsOf w) kv.1 with
          | none => false
          | some cv => kv.2 == cv) = false := by
      apply Bool.eq_false_iff.mpr
      intro hAll
      rw [List.all_eq_true] at hAll
      have hpl : (("printer-location", p.location) : String × Option String) ∈
          expected_cups_options p mm := by
        unfold expected_cups_options
        simp
      have hx := hAll _ hpl
      rcases hmiss with hl | ⟨s, hl⟩
      · rw [hco, hl] at hx
        exact absurd hx (by simp)
      · rw [hco, hl] at hx
        have hbeq : (p.location == some s) = true := hx
        rw [hloc] at hbeq
        exact absurd hbeq (by simp)
    have hcf : check_cups_options p w = .ok false := by
      rw [check_cups_options_ok p w mm hg, hball]
    refine ⟨hcf, fun hu => ?_⟩
    show ∃ rest, (install p w).actions = _
    rw [install_eq w hu]
    unfold installPresent
    have hex : existsQ w = true := by
      unfold existsQ
      rw [hq]
      rfl
    rw [if_pos hex, hcf]
    show ∃ rest, (installStage2 p u (applyRemove w) [CupsAction.remove]).actions = _
    unfold installStage2
    rw [if_neg (by simp [existsQ, applyRemove])]
    rcases optionsStage_actions p (applyCreate p u (applyRemove w))
        ([CupsAction.remove] ++ [CupsAction.create (install_printer_cmd p u)]) with
      hc | hc
    · exact ⟨[], by rw [hc]; rfl⟩
    · exact ⟨[CupsAction.setOptions p.options], by rw [hc]; rfl⟩

theorem location_none_requires_flag_witness :
    check_cups_options rawPrinter rawWorld = .ok false ∧
    ∃ rest, (reconcile rawPrinter .present rawWorld).actions =
      CupsAction.remove :: CupsAction.create (install_printer_cmd rawPrinter
        "lpd://h/") :: rest :=
  ⟨((location_none_requires_flag rawPrinter rawWorld
      ⟨[("printer-location", some "")], []⟩ "lpd://h/" rfl rfl).2.1
      "Local Raw Printer" rfl (Or.inr ⟨"", rfl⟩)).1,
    ((location_none_requires_flag rawPrinter rawWorld
      ⟨[("printer-location", some "")], []⟩ "lpd://h/" rfl rfl).2.1
      "Local Raw Printer" rfl (Or.inr ⟨"", rfl⟩)).2 rfl⟩
